import Mathlib

/-!
Verification of the cc-proxy failover core against its specification.

The Go source is shallowly embedded: each Go function relevant to the
properties below is translated into a Lean function over explicit state,
with `time.Time` modelled as `Int` seconds (the Go zero value `time.Time{}`
is modelled as `0`, matching the `IsZero` test), Go `int` modelled as `Int`,
and fallible operations returning `Except`/`Option`.
-/

namespace CCProxy

/-- Backend configuration (`Backend` struct, immutable after load). -/
structure Backend where
  name : String
  baseURL : String
  token : String
  enabled : Bool
  model : String
  platform : String
  deriving Repr, DecidableEq

/-- Embeds `BackendState` from config_loader.go: runtime state of one backend.
`lastError` is modelled by the HTTP status code recorded with it. -/
structure BackendState where
  backend : Backend
  consecutiveFails : Int
  lastFailTime : Int
  lastErrorCode : Int
  circuitOpen : Bool
  last429Time : Int
  retryAfter : Int
  halfOpenTries : Int
  deriving Repr, DecidableEq

/-- Circuit-breaker section of the failover configuration. -/
structure CircuitBreakerConfig where
  failureThreshold : Int
  openTimeoutSeconds : Int
  halfOpenRequests : Int
  deriving Repr, DecidableEq

/-- Rate-limit section of the failover configuration. -/
structure RateLimitConfig where
  cooldownSeconds : Int
  deriving Repr, DecidableEq

structure FailoverConfig where
  circuitBreaker : CircuitBreakerConfig
  rateLimit : RateLimitConfig
  deriving Repr, DecidableEq

structure RetryConfig where
  maxAttempts : Int
  timeout : Int
  deriving Repr, DecidableEq

structure Config where
  failover : FailoverConfig
  retry : RetryConfig
  deriving Repr, DecidableEq

/-- The state a backend gets in `NewCircuitBreaker`: all runtime fields are
Go zero values. -/
def initBackendState (b : Backend) : BackendState :=
  { backend := b
    consecutiveFails := 0
    lastFailTime := 0
    lastErrorCode := 0
    circuitOpen := false
    last429Time := 0
    retryAfter := 0
    halfOpenTries := 0 }

/-- Reason attached to a skip decision (the human-readable string in the
source, carried here as structured data). -/
inductive SkipReason where
  | noSkip
  | circuitOpenWait (remainingSeconds : Int)
  | halfOpenExhausted (used max : Int)
  deriving Repr, DecidableEq

/-- Embeds `ShouldSkipBackend` (config_loader.go:99-134).  Checks the circuit
breaker first; the rate-limit cooldown branch deliberately returns
`false` (demotion, not exclusion). -/
def ShouldSkipBackend (cfg : Config) (state : BackendState) (now : Int) :
    Bool × SkipReason :=
  if state.circuitOpen then
    let openDuration := now - state.lastFailTime
    let timeout := cfg.failover.circuitBreaker.openTimeoutSeconds
    if openDuration < timeout then
      (true, .circuitOpenWait (timeout - openDuration))
    else
      let maxHalfOpenRequests := cfg.failover.circuitBreaker.halfOpenRequests
      if state.halfOpenTries ≥ maxHalfOpenRequests then
        (true, .halfOpenExhausted state.halfOpenTries maxHalfOpenRequests)
      else
        -- allow this half-open test request; fall through to the 429 check
        if state.last429Time ≠ 0 ∧
            now - state.last429Time < cfg.failover.rateLimit.cooldownSeconds then
          (false, .noSkip)
        else
          (false, .noSkip)
  else
    if state.last429Time ≠ 0 ∧
        now - state.last429Time < cfg.failover.rateLimit.cooldownSeconds then
      (false, .noSkip)
    else
      (false, .noSkip)

/-- Embeds `RecordSuccess` (config_loader.go:137-149). -/
def RecordSuccess (state : BackendState) : BackendState :=
  { state with
    consecutiveFails := 0
    circuitOpen := false
    halfOpenTries := 0
    lastFailTime := 0 }

/-- Embeds `RecordFailure` (config_loader.go:152-174).  `now` is `time.Now()`. -/
def RecordFailure (cfg : Config) (state : BackendState) (now : Int)
    (statusCode : Int) : BackendState :=
  let state :=
    { state with
      consecutiveFails := state.consecutiveFails + 1
      lastFailTime := now
      lastErrorCode := statusCode }
  if state.circuitOpen then
    -- already open: reset half-open counter, keep the circuit open
    { state with halfOpenTries := 0 }
  else
    if state.consecutiveFails ≥ cfg.failover.circuitBreaker.failureThreshold then
      { state with circuitOpen := true }
    else
      state

/-- Embeds `IncrementHalfOpenTries` (config_loader.go:177-182). -/
def IncrementHalfOpenTries (state : BackendState) : BackendState :=
  { state with halfOpenTries := state.halfOpenTries + 1 }

/-- Embeds `IsHalfOpen` (config_loader.go:185-195). -/
def IsHalfOpen (cfg : Config) (state : BackendState) (now : Int) : Bool :=
  if !state.circuitOpen then
    false
  else
    decide (now - state.lastFailTime ≥
      cfg.failover.circuitBreaker.openTimeoutSeconds)

/-- Embeds `Record429` (config_loader.go:198-215).  The `Retry-After` header is
modelled as `none` when absent or unparseable by `strconv.Atoi`, and
`some s` when it parses to `s` seconds. -/
def Record429 (state : BackendState) (now : Int) (retryAfter : Option Int) :
    BackendState :=
  let state := { state with last429Time := now }
  match retryAfter with
  | some seconds => { state with retryAfter := now + seconds }
  | none => state

/-- Rate-limit cooldown test used in `SortBackendsByPriority`
(config_loader.go:234). -/
def inRateLimitCooldown (cfg : Config) (state : BackendState) (now : Int) :
    Bool :=
  state.last429Time ≠ 0 ∧
    now - state.last429Time < cfg.failover.rateLimit.cooldownSeconds

/-- The loop body of `SortBackendsByPriority` (config_loader.go:228-239):
walk the state list in configured order, dropping disabled backends and
splitting the rest into the `normal` and `rateLimited` groups. -/
def partitionByPriority (cfg : Config) (now : Int) :
    List BackendState → List BackendState × List BackendState
  | [] => ([], [])
  | state :: rest =>
    let (normal, rateLimited) := partitionByPriority cfg now rest
    if !state.backend.enabled then
      (normal, rateLimited)
    else if inRateLimitCooldown cfg state now then
      (normal, state :: rateLimited)
    else
      (state :: normal, rateLimited)

/-- Embeds `SortBackendsByPriority` (config_loader.go:218-244): normal backends
first, then rate-limited ones, each group in configured order. -/
def SortBackendsByPriority (cfg : Config) (states : List BackendState)
    (now : Int) : List BackendState :=
  let (normal, rateLimited) := partitionByPriority cfg now states
  normal ++ rateLimited

/-- Events driving one backend's circuit-breaker state, as recorded by the
orchestrator: a failure (5xx or transport error) at time `now` with a
status code, a success, a 429 at time `now` with an optional parsed
`Retry-After`, or a half-open trial admission. -/
inductive CBEvent where
  | failure (now : Int) (statusCode : Int)
  | success
  | rateLimited (now : Int) (retryAfter : Option Int)
  | halfOpenTry
  deriving Repr, DecidableEq

/-- One circuit-breaker transition. -/
def cbStep (cfg : Config) (state : BackendState) : CBEvent → BackendState
  | .failure now code => RecordFailure cfg state now code
  | .success => RecordSuccess state
  | .rateLimited now ra => Record429 state now ra
  | .halfOpenTry => IncrementHalfOpenTries state

/-- Run a sequence of circuit-breaker events. -/
def cbRun (cfg : Config) (state : BackendState) (events : List CBEvent) :
    BackendState :=
  events.foldl (cbStep cfg) state

/-- Whether an event is a recorded failure. -/
def CBEvent.isFailure : CBEvent → Bool
  | .failure _ _ => true
  | _ => false

/-- Sample configuration: the documented defaults (threshold 3, open
timeout 30 s, 1 half-open trial, 60 s cooldown, 30 s request timeout). -/
def cfgDefault : Config :=
  { failover :=
      { circuitBreaker :=
          { failureThreshold := 3, openTimeoutSeconds := 30, halfOpenRequests := 1 }
        rateLimit := { cooldownSeconds := 60 } }
    retry := { maxAttempts := 3, timeout := 30 } }

/-- A sample enabled backend used to instantiate theorems. -/
def backendA : Backend :=
  { name := "a", baseURL := "https://a.example", token := "ta",
    enabled := true, model := "", platform := "" }

def backendB : Backend :=
  { name := "b", baseURL := "https://b.example", token := "tb",
    enabled := true, model := "", platform := "" }

def backendC : Backend :=
  { name := "c", baseURL := "https://c.example", token := "tc",
    enabled := false, model := "", platform := "" }

lemma cbRun_nil (cfg : Config) (s : BackendState) : cbRun cfg s [] = s := rfl

/-- Characterization of the skip flag computed by `ShouldSkipBackend`:
it is set exactly for an open circuit that is either still inside the
open window or has exhausted its half-open budget. -/
lemma ShouldSkipBackend_fst (cfg : Config) (s : BackendState) (now : Int) :
    (ShouldSkipBackend cfg s now).1 =
      (s.circuitOpen &&
        (decide (now - s.lastFailTime <
            cfg.failover.circuitBreaker.openTimeoutSeconds) ||
          decide (cfg.failover.circuitBreaker.halfOpenRequests ≤
            s.halfOpenTries))) := by
  simp only [ShouldSkipBackend]
  by_cases h1 : s.circuitOpen
  · simp only [h1, if_true, Bool.true_and]
    by_cases h2 : now - s.lastFailTime <
        cfg.failover.circuitBreaker.openTimeoutSeconds
    · simp [h2]
    · simp only [h2, if_neg, decide_eq_true_eq, if_false]
      by_cases h3 : s.halfOpenTries ≥
          cfg.failover.circuitBreaker.halfOpenRequests
      · simp [h2, h3]
      · simp only [h2, h3]
        have h3' : ¬ (cfg.failover.circuitBreaker.halfOpenRequests ≤
            s.halfOpenTries) := h3
        simp [h3']
  · simp only [h1, Bool.false_and, if_false]
    simp

lemma cbRun_cons (cfg : Config) (s : BackendState) (e : CBEvent)
    (evs : List CBEvent) :
    cbRun cfg s (e :: evs) = cbRun cfg (cbStep cfg s e) evs := rfl

lemma RecordFailure_consecutiveFails (cfg : Config) (s : BackendState)
    (now code : Int) :
    (RecordFailure cfg s now code).consecutiveFails = s.consecutiveFails + 1 := by
  simp only [RecordFailure]
  split <;> [skip; split] <;> rfl

lemma RecordFailure_lastFailTime (cfg : Config) (s : BackendState)
    (now code : Int) :
    (RecordFailure cfg s now code).lastFailTime = now := by
  simp only [RecordFailure]
  split <;> [skip; split] <;> rfl

lemma RecordFailure_circuitOpen (cfg : Config) (s : BackendState)
    (now code : Int) :
    (RecordFailure cfg s now code).circuitOpen =
      (s.circuitOpen ||
        decide (cfg.failover.circuitBreaker.failureThreshold ≤
          s.consecutiveFails + 1)) := by
  simp only [RecordFailure]
  by_cases h : s.circuitOpen
  · simp [h]
  · simp [h]; split <;> simp_all

lemma RecordFailure_halfOpenTries (cfg : Config) (s : BackendState)
    (now code : Int) :
    (RecordFailure cfg s now code).halfOpenTries =
      (if s.circuitOpen then 0 else s.halfOpenTries) := by
  simp only [RecordFailure]
  by_cases h : s.circuitOpen
  · simp [h]
  · simp [h]; split <;> rfl

/-- Running a pure-failure trace from a state whose `circuitOpen` flag
agrees with the threshold test keeps that agreement and counts every
failure. -/
lemma cbRun_failures (cfg : Config) :
    ∀ (evs : List CBEvent) (s : BackendState),
      (∀ e ∈ evs, e.isFailure = true) →
      (s.circuitOpen =
        decide (cfg.failover.circuitBreaker.failureThreshold ≤
          s.consecutiveFails)) →
      (cbRun cfg s evs).consecutiveFails = s.consecutiveFails + evs.length ∧
      ((cbRun cfg s evs).circuitOpen =
        decide (cfg.failover.circuitBreaker.failureThreshold ≤
          s.consecutiveFails + evs.length)) := by
  intro evs
  induction evs with
  | nil => intro s _ hinv; exact ⟨by simp [cbRun_nil], by simpa using hinv⟩
  | cons e rest ih =>
    intro s hall hinv
    match e with
    | .failure now code =>
      rw [cbRun_cons]
      have hstep : cbStep cfg s (.failure now code) =
          RecordFailure cfg s now code := rfl
      rw [hstep]
      have hrest : ∀ e ∈ rest, e.isFailure = true := by
        intro e he; exact hall e (List.mem_cons_of_mem _ he)
      have hfails := RecordFailure_consecutiveFails cfg s now code
      have hopen := RecordFailure_circuitOpen cfg s now code
      have hinv' : (RecordFailure cfg s now code).circuitOpen =
          decide (cfg.failover.circuitBreaker.failureThreshold ≤
            (RecordFailure cfg s now code).consecutiveFails) := by
        rw [hopen, hfails, hinv]
        by_cases h : cfg.failover.circuitBreaker.failureThreshold ≤
            s.consecutiveFails
        · have h2 : cfg.failover.circuitBreaker.failureThreshold ≤
              s.consecutiveFails + 1 := by omega
          simp [h, h2]
        · simp [h]
      obtain ⟨h1, h2⟩ := ih (RecordFailure cfg s now code) hrest hinv'
      refine ⟨?_, ?_⟩
      · rw [h1, hfails]; simp [List.length_cons]; ring
      · rw [h2, hfails]
        have : s.consecutiveFails + 1 + rest.length =
            s.consecutiveFails + (rest.length + 1) := by ring
        rw [this]
        simp [List.length_cons]
    | .success => exact absurd (hall _ (List.mem_cons_self _ _)) (by simp [CBEvent.isFailure])
    | .rateLimited now ra => exact absurd (hall _ (List.mem_cons_self _ _)) (by simp [CBEvent.isFailure])
    | .halfOpenTry => exact absurd (hall _ (List.mem_cons_self _ _)) (by simp [CBEvent.isFailure])

/-- The inductive invariant behind C1: an open circuit always has at least
`failureThreshold` consecutive failures on record. -/
lemma cbRun_open_invariant (cfg : Config) :
    ∀ (evs : List CBEvent) (s : BackendState),
      (s.circuitOpen = true →
        cfg.failover.circuitBreaker.failureThreshold ≤ s.consecutiveFails) →
      (cbRun cfg s evs).circuitOpen = true →
      cfg.failover.circuitBreaker.failureThreshold ≤
        (cbRun cfg s evs).consecutiveFails := by
  intro evs
  induction evs with
  | nil => intro s hinv hopen; exact hinv hopen
  | cons e rest ih =>
    intro s hinv
    rw [cbRun_cons]
    refine ih (cbStep cfg s e) ?_
    match e with
    | .failure now code =>
      intro hopen
      rw [show cbStep cfg s (.failure now code) = RecordFailure cfg s now code
        from rfl] at hopen ⊢
      rw [RecordFailure_consecutiveFails]
      rw [RecordFailure_circuitOpen] at hopen
      rcases Bool.or_eq_true_iff.mp hopen with h | h
      · exact le_trans (hinv h) (by omega)
      · exact of_decide_eq_true h
    | .success => intro hopen; simp [cbStep, RecordSuccess] at hopen
    | .rateLimited now ra =>
      intro hopen
      have h429 : cbStep cfg s (.rateLimited now ra) =
          Record429 s now ra := rfl
      rw [h429] at hopen ⊢
      have hopen' : s.circuitOpen = true := by
        cases ra <;> simpa [Record429] using hopen
      have : (Record429 s now ra).consecutiveFails = s.consecutiveFails := by
        cases ra <;> rfl
      rw [this]; exact hinv hopen'
    | .halfOpenTry =>
      intro hopen
      have : cbStep cfg s .halfOpenTry = IncrementHalfOpenTries s := rfl
      rw [this] at hopen ⊢
      exact hinv (by simpa [IncrementHalfOpenTries] using hopen)

/-- C1: starting from the fresh state, a run of consecutive recorded
failures opens the circuit exactly when their number reaches
`failureThreshold` (and not before); while the circuit is open and
`openTimeoutSeconds` have not elapsed since `lastFailTime`,
`ShouldSkipBackend` skips; and over arbitrary event traces an open
circuit always has `consecutiveFails ≥ failureThreshold` (so the
threshold was reached since the last success, which would have cleared
both fields). -/
theorem circuit_opens_exactly_at_threshold (cfg : Config) (b : Backend)
    (hthr : 1 ≤ cfg.failover.circuitBreaker.failureThreshold) :
    (∀ evs : List CBEvent, (∀ e ∈ evs, e.isFailure = true) →
      ((cbRun cfg (initBackendState b) evs).circuitOpen = true ↔
        cfg.failover.circuitBreaker.failureThreshold ≤ (evs.length : Int)))
    ∧ (∀ (s : BackendState) (now : Int), s.circuitOpen = true →
        now - s.lastFailTime < cfg.failover.circuitBreaker.openTimeoutSeconds →
        (ShouldSkipBackend cfg s now).1 = true)
    ∧ (∀ evs : List CBEvent,
        (cbRun cfg (initBackendState b) evs).circuitOpen = true →
        cfg.failover.circuitBreaker.failureThreshold ≤
          (cbRun cfg (initBackendState b) evs).consecutiveFails) := by
  refine ⟨?_, ?_, ?_⟩
  · intro evs hall
    have hinv : (initBackendState b).circuitOpen =
        decide (cfg.failover.circuitBreaker.failureThreshold ≤
          (initBackendState b).consecutiveFails) := by
      simp only [initBackendState]
      have : ¬ (cfg.failover.circuitBreaker.failureThreshold ≤ (0 : Int)) := by
        omega
      simp [this]
    obtain ⟨_, hopen⟩ := cbRun_failures cfg evs (initBackendState b) hall hinv
    rw [hopen]
    simp [initBackendState]
  · intro s now hopen hlt
    rw [ShouldSkipBackend_fst, hopen]
    simp [hlt]
  · intro evs
    refine cbRun_open_invariant cfg evs (initBackendState b) ?_
    intro h
    simp [initBackendState] at h

/-- Witness for `circuit_opens_exactly_at_threshold` at the default
configuration and a concrete three-failure trace. -/
theorem circuit_opens_exactly_at_threshold_witness :
    (cbRun cfgDefault (initBackendState backendA)
        [.failure 10 500, .failure 20 502, .failure 30 503]).circuitOpen = true
    ∧ (ShouldSkipBackend cfgDefault
        (cbRun cfgDefault (initBackendState backendA)
          [.failure 10 500, .failure 20 502, .failure 30 503]) 40).1 = true
    ∧ cfgDefault.failover.circuitBreaker.failureThreshold ≤
        (cbRun cfgDefault (initBackendState backendA)
          [.failure 10 500, .failure 20 502, .failure 30 503]).consecutiveFails := by
  have h := circuit_opens_exactly_at_threshold cfgDefault backendA (by decide)
  refine ⟨?_, ?_, ?_⟩
  · exact (h.1 [.failure 10 500, .failure 20 502, .failure 30 503]
      (by decide)).mpr (by decide)
  · exact h.2.1 _ 40 (by decide) (by decide)
  · exact h.2.2 [.failure 10 500, .failure 20 502, .failure 30 503] (by decide)

/-- C2 (amended): once the open timeout has elapsed, up to
`halfOpenRequests` trial admissions are allowed within the window while
no outcome is recorded — each admission increments the trial counter and
`ShouldSkipBackend` skips again exactly when the counter reaches the
budget; a failed trial records a fresh `lastFailTime` (restarting the
open window, contrary to the original claim) and resets the trial
counter to 0; a successful trial immediately clears `circuitOpen`,
resets `consecutiveFails` to 0 and resets the trial counter. -/
theorem half_open_trial_budget_and_reset (cfg : Config) (s : BackendState)
    (now code : Int) :
    (s.circuitOpen = true →
      cfg.failover.circuitBreaker.openTimeoutSeconds ≤ now - s.lastFailTime →
      ((s.halfOpenTries < cfg.failover.circuitBreaker.halfOpenRequests →
          (ShouldSkipBackend cfg s now).1 = false)
        ∧ (cfg.failover.circuitBreaker.halfOpenRequests ≤ s.halfOpenTries →
          (ShouldSkipBackend cfg s now).1 = true)))
    ∧ (IncrementHalfOpenTries s).halfOpenTries = s.halfOpenTries + 1
    ∧ (s.circuitOpen = true →
        (RecordFailure cfg s now code).circuitOpen = true ∧
        (RecordFailure cfg s now code).lastFailTime = now ∧
        (RecordFailure cfg s now code).halfOpenTries = 0)
    ∧ ((RecordSuccess s).circuitOpen = false ∧
        (RecordSuccess s).consecutiveFails = 0 ∧
        (RecordSuccess s).halfOpenTries = 0) := by
  refine ⟨?_, rfl, ?_, ⟨rfl, rfl, rfl⟩⟩
  · intro hopen helapsed
    have hnotlt : ¬ (now - s.lastFailTime <
        cfg.failover.circuitBreaker.openTimeoutSeconds) := by omega
    constructor
    · intro htries
      have hnotge : ¬ (cfg.failover.circuitBreaker.halfOpenRequests ≤
          s.halfOpenTries) := by omega
      rw [ShouldSkipBackend_fst, hopen]
      simp [hnotlt, hnotge]
    · intro htries
      rw [ShouldSkipBackend_fst, hopen]
      simp [hnotlt, htries]
  · intro hopen
    refine ⟨?_, RecordFailure_lastFailTime cfg s now code, ?_⟩
    · rw [RecordFailure_circuitOpen, hopen]; rfl
    · rw [RecordFailure_halfOpenTries, if_pos hopen]

/-- An open backend state with an elapsed window and one trial already
used; `RecordFailure` on it refutes the reuse-of-timestamp claim. -/
def openTrialState : BackendState :=
  { backend := backendA, consecutiveFails := 3, lastFailTime := 100,
    lastErrorCode := 500, circuitOpen := true, last429Time := 0,
    retryAfter := 0, halfOpenTries := 1 }

/-- Counterexample to C2 as stated: a failed half-open trial does NOT
reuse the previous `lastFailTime` — `RecordFailure` on an open backend
stamps the current time (and resets, rather than exhausts, the trial
counter), so the open window restarts with a fresh timer. -/
theorem failed_trial_refreshes_open_timer :
    ¬ ((RecordFailure cfgDefault openTrialState 200 500).lastFailTime =
        openTrialState.lastFailTime) := by decide

/-- Witness for `half_open_trial_budget_and_reset` on a concrete open
state whose window has elapsed. -/
theorem half_open_trial_budget_and_reset_witness :
    (ShouldSkipBackend cfgDefault
      { openTrialState with halfOpenTries := 0 } 200).1 = false
    ∧ (ShouldSkipBackend cfgDefault openTrialState 200).1 = true
    ∧ (RecordFailure cfgDefault openTrialState 200 500).halfOpenTries = 0 := by
  have h0 := half_open_trial_budget_and_reset cfgDefault
    { openTrialState with halfOpenTries := 0 } 200 500
  have h1 := half_open_trial_budget_and_reset cfgDefault openTrialState 200 500
  refine ⟨?_, ?_, ?_⟩
  · exact (h0.1 (by decide) (by decide)).1 (by decide)
  · exact (h1.1 (by decide) (by decide)).2 (by decide)
  · exact (h1.2.2.1 (by decide)).2.2

/-- The two groups built by the `SortBackendsByPriority` loop are the
in-order filters of the input list. -/
lemma partitionByPriority_eq_filter (cfg : Config) (now : Int) :
    ∀ states : List BackendState,
      partitionByPriority cfg now states =
        (states.filter
            (fun s => s.backend.enabled && !(inRateLimitCooldown cfg s now)),
          states.filter
            (fun s => s.backend.enabled && inRateLimitCooldown cfg s now)) := by
  intro states
  induction states with
  | nil => rfl
  | cons s rest ih =>
    simp only [partitionByPriority, ih]
    by_cases h1 : s.backend.enabled
    · by_cases h2 : inRateLimitCooldown cfg s now
      · simp [h1, h2, List.filter_cons]
      · simp [h1, h2, List.filter_cons]
    · simp [h1, List.filter_cons]

/-- C3: the skip flag is set only for open-circuit backends still inside
the open window or with an exhausted half-open budget (never for
rate-limiting, and trivially covered by the disabled disjunct of the
claim); `SortBackendsByPriority` returns exactly the enabled
non-rate-limited backends in configured order followed by the enabled
rate-limited ones in configured order; disabled backends never appear. -/
theorem rate_limit_demotes_never_excludes (cfg : Config)
    (states : List BackendState) (now : Int) :
    (∀ (s : BackendState) (t : Int), (ShouldSkipBackend cfg s t).1 = true →
      s.backend.enabled = false ∨
        (s.circuitOpen = true ∧
          (t - s.lastFailTime < cfg.failover.circuitBreaker.openTimeoutSeconds ∨
            cfg.failover.circuitBreaker.halfOpenRequests ≤ s.halfOpenTries)))
    ∧ SortBackendsByPriority cfg states now =
        states.filter
            (fun s => s.backend.enabled && !(inRateLimitCooldown cfg s now))
          ++ states.filter
            (fun s => s.backend.enabled && inRateLimitCooldown cfg s now)
    ∧ (∀ s ∈ SortBackendsByPriority cfg states now,
        s.backend.enabled = true) := by
  have hsort : SortBackendsByPriority cfg states now =
      states.filter
          (fun s => s.backend.enabled && !(inRateLimitCooldown cfg s now))
        ++ states.filter
          (fun s => s.backend.enabled && inRateLimitCooldown cfg s now) := by
    simp only [SortBackendsByPriority, partitionByPriority_eq_filter]
  refine ⟨?_, hsort, ?_⟩
  · intro s t hskip
    rw [ShouldSkipBackend_fst] at hskip
    have h := Bool.and_eq_true_iff.mp hskip
    refine Or.inr ⟨h.1, ?_⟩
    rcases Bool.or_eq_true_iff.mp h.2 with h2 | h2
    · exact Or.inl (of_decide_eq_true h2)
    · exact Or.inr (of_decide_eq_true h2)
  · intro s hs
    rw [hsort] at hs
    rcases List.mem_append.mp hs with h | h
    · exact (Bool.and_eq_true_iff.mp (List.mem_filter.mp h).2).1
    · exact (Bool.and_eq_true_iff.mp (List.mem_filter.mp h).2).1

/-- A backend state inside its 429 cooldown at time 100 (429 recorded at
time 95, cooldown 60 s). -/
def rateLimitedState : BackendState :=
  { initBackendState backendB with last429Time := 95 }

/-- Witness for `rate_limit_demotes_never_excludes` on a concrete state
list: the skip implication at an open backend, the concrete sort order,
and the enabled flag of every returned backend. -/
theorem rate_limit_demotes_never_excludes_witness :
    (openTrialState.backend.enabled = false ∨
      (openTrialState.circuitOpen = true ∧
        ((110 : Int) - openTrialState.lastFailTime <
            cfgDefault.failover.circuitBreaker.openTimeoutSeconds ∨
          cfgDefault.failover.circuitBreaker.halfOpenRequests ≤
            openTrialState.halfOpenTries)))
    ∧ SortBackendsByPriority cfgDefault
        [initBackendState backendA, rateLimitedState, initBackendState backendC]
        100 =
      [initBackendState backendA, rateLimitedState]
    ∧ rateLimitedState.backend.enabled = true := by
  have h := rate_limit_demotes_never_excludes cfgDefault
    [initBackendState backendA, rateLimitedState, initBackendState backendC] 100
  refine ⟨h.1 openTrialState 110 (by decide), ?_, ?_⟩
  · rw [h.2.1]; decide
  · exact h.2.2 rateLimitedState (by decide)

lemma Record429_fields (s : BackendState) (now : Int) (ra : Option Int) :
    (Record429 s now ra).last429Time = now ∧
    (Record429 s now ra).consecutiveFails = s.consecutiveFails ∧
    (Record429 s now ra).circuitOpen = s.circuitOpen ∧
    (Record429 s now ra).halfOpenTries = s.halfOpenTries ∧
    (Record429 s now ra).lastFailTime = s.lastFailTime ∧
    (Record429 s now ra).lastErrorCode = s.lastErrorCode ∧
    (Record429 s now ra).backend = s.backend := by
  cases ra <;> simp [Record429]

/-- C4: `Record429` touches only `last429Time` and `retryAfter`; in
particular it never increments `consecutiveFails` and never sets
`circuitOpen`, and the same holds across any sequence of recorded 429s
(each given by its time and optional parsed Retry-After). -/
theorem record429_never_trips_breaker (s : BackendState)
    (events : List (Int × Option Int)) :
    (∀ (now : Int) (ra : Option Int),
      (Record429 s now ra).last429Time = now ∧
      (Record429 s now ra).consecutiveFails = s.consecutiveFails ∧
      (Record429 s now ra).circuitOpen = s.circuitOpen ∧
      (Record429 s now ra).halfOpenTries = s.halfOpenTries ∧
      (Record429 s now ra).lastFailTime = s.lastFailTime ∧
      (Record429 s now ra).lastErrorCode = s.lastErrorCode ∧
      (Record429 s now ra).backend = s.backend)
    ∧ ((events.foldl (fun st p => Record429 st p.1 p.2) s).consecutiveFails =
          s.consecutiveFails
        ∧ (events.foldl (fun st p => Record429 st p.1 p.2) s).circuitOpen =
          s.circuitOpen
        ∧ (events.foldl (fun st p => Record429 st p.1 p.2) s).halfOpenTries =
          s.halfOpenTries
        ∧ (events.foldl (fun st p => Record429 st p.1 p.2) s).lastFailTime =
          s.lastFailTime) := by
  refine ⟨fun now ra => Record429_fields s now ra, ?_⟩
  induction events generalizing s with
  | nil => exact ⟨rfl, rfl, rfl, rfl⟩
  | cons p rest ih =>
    simp only [List.foldl_cons]
    obtain ⟨h1, h2, h3, h4⟩ := ih (Record429 s p.1 p.2)
    obtain ⟨_, g1, g2, g3, g4, _, _⟩ := Record429_fields s p.1 p.2
    exact ⟨h1.trans g1, h2.trans g2, h3.trans g3, h4.trans g4⟩

/-! ## Compression codec layer (`readResponseBody`, proxy.go:724-806) -/

/-- Model of an HTTP response body stream: the bytes `io.ReadAll` can
deliver, and whether the stream then ends in a read error instead of a
clean EOF. -/
structure RespBody where
  bytes : List Nat
  readErr : Bool
  deriving Repr, DecidableEq

/-- Behaviour of an external decompression library (gzip or zstd),
abstracted: whether `NewReader` accepts the stream's header, the bytes
`io.ReadAll` obtains from the decompressing reader before any error,
and whether that read ends in an error. -/
structure Codec where
  headerOk : List Nat → Bool
  decodeBytes : List Nat → List Nat
  decodeErr : List Nat → Bool

/-- The `Content-Encoding` response header as consulted by
`readResponseBody` (case-insensitive comparison in the source collapses
to these cases). -/
inductive ContentEncoding where
  | missing
  | gzip
  | zstd
  | other
  deriving Repr, DecidableEq

/-- Embeds `readResponseBody` (proxy.go:724-806).  Declared gzip/zstd encodings
wrap the body in the matching decompressor (falling back to a direct
read of the remaining stream when `NewReader` rejects the header); a
read error with partial data returns the partial data; with no declared
encoding, gzip magic `1f 8b` (length > 2) and zstd magic `28 b5 2f fd`
(length > 4) trigger best-effort sniffing whose failures return the raw
bytes unchanged. -/
def readResponseBody (gz zs : Codec) (enc : ContentEncoding)
    (body : RespBody) : Except Unit (List Nat) :=
  match enc with
  | .gzip =>
    if gz.headerOk body.bytes then
      let data := gz.decodeBytes body.bytes
      if gz.decodeErr body.bytes || body.readErr then
        if 0 < data.length then .ok data else .error ()
      else
        .ok data
    else
      -- gzip.NewReader failed: `return io.ReadAll(resp.Body)`
      if body.readErr then .error () else .ok body.bytes
  | .zstd =>
    if zs.headerOk body.bytes then
      let data := zs.decodeBytes body.bytes
      if zs.decodeErr body.bytes || body.readErr then
        if 0 < data.length then .ok data else .error ()
      else
        .ok data
    else
      if body.readErr then .error () else .ok body.bytes
  | .missing =>
    let data := body.bytes
    if body.readErr then
      if 0 < data.length then .ok data else .error ()
    else
      if 2 < data.length ∧ data.take 2 = [0x1f, 0x8b] then
        if gz.headerOk data then
          if gz.decodeErr data then .ok data else .ok (gz.decodeBytes data)
        else .ok data
      else if 4 < data.length ∧ data.take 4 = [0x28, 0xb5, 0x2f, 0xfd] then
        if zs.headerOk data then
          if zs.decodeErr data then .ok data else .ok (zs.decodeBytes data)
        else .ok data
      else .ok data
  | .other =>
    let data := body.bytes
    if body.readErr then
      if 0 < data.length then .ok data else .error ()
    else .ok data

/-- A concrete gzip-library behaviour: the only stream it fully decodes
is `1f 8b 08 00`, which decompresses to `[65]`; any other stream whose
first two bytes are the gzip magic has an acceptable header but a
corrupt deflate stream producing no output. -/
def gzSample : Codec :=
  { headerOk := fun l => decide (l.take 2 = [0x1f, 0x8b])
    decodeBytes := fun l => if l = [0x1f, 0x8b, 0x08, 0x00] then [65] else []
    decodeErr := fun l => decide (l ≠ [0x1f, 0x8b, 0x08, 0x00]) }

/-- A concrete zstd-library behaviour: the only stream it fully decodes
is `28 b5 2f fd 00`, which decompresses to `[66]`. -/
def zsSample : Codec :=
  { headerOk := fun l => decide (l.take 4 = [0x28, 0xb5, 0x2f, 0xfd])
    decodeBytes := fun l => if l = [0x28, 0xb5, 0x2f, 0xfd, 0x00] then [66] else []
    decodeErr := fun l => decide (l ≠ [0x28, 0xb5, 0x2f, 0xfd, 0x00]) }

/-- Counterexample to C9 as stated: with a declared
`Content-Encoding: gzip` header and a corrupted payload whose gzip
header parses but whose compressed stream yields no output,
`readResponseBody` returns a hard error to the caller instead of
falling back to the raw bytes. -/
theorem declared_gzip_corrupt_payload_hard_error :
    readResponseBody gzSample zsSample .gzip
      { bytes := [0x1f, 0x8b, 0x08, 0x99], readErr := false } =
      .error () := rfl

/-- C9 (amended): with no `Content-Encoding` but gzip or zstd magic
bytes, a decodable payload is decompressed (and any sniffing failure
returns the raw bytes unchanged); with a declared gzip encoding whose
header `NewReader` rejects, the raw stream is returned without error;
with a declared gzip encoding whose header parses but whose stream is
corrupt, the partially decompressed bytes are returned if there are
any, otherwise a hard read error is returned (this is where the
original claim fails); and a mid-stream read error with no declared
encoding returns whatever bytes were read. -/
theorem readResponseBody_behaviour (gz zs : Codec) (body : RespBody) :
    (body.readErr = false → 2 < body.bytes.length →
      body.bytes.take 2 = [0x1f, 0x8b] →
      gz.headerOk body.bytes = true → gz.decodeErr body.bytes = false →
      readResponseBody gz zs .missing body = .ok (gz.decodeBytes body.bytes))
    ∧ (body.readErr = false → 4 < body.bytes.length →
        ¬ (2 < body.bytes.length ∧ body.bytes.take 2 = [0x1f, 0x8b]) →
        body.bytes.take 4 = [0x28, 0xb5, 0x2f, 0xfd] →
        zs.headerOk body.bytes = true → zs.decodeErr body.bytes = false →
        readResponseBody gz zs .missing body = .ok (zs.decodeBytes body.bytes))
    ∧ (body.readErr = false → gz.headerOk body.bytes = false →
        readResponseBody gz zs .gzip body = .ok body.bytes)
    ∧ (gz.headerOk body.bytes = true →
        (gz.decodeErr body.bytes = true ∨ body.readErr = true) →
        readResponseBody gz zs .gzip body =
          (if 0 < (gz.decodeBytes body.bytes).length
            then .ok (gz.decodeBytes body.bytes) else .error ()))
    ∧ (body.readErr = true → 0 < body.bytes.length →
        readResponseBody gz zs .missing body = .ok body.bytes) := by
  refine ⟨?_, ?_, ?_, ?_, ?_⟩
  · intro hre hlen hmagic hok hdec
    simp only [readResponseBody, hre]
    rw [if_neg (by simp [hre]), if_pos ⟨hlen, hmagic⟩, if_pos hok, if_neg (by simp [hdec])]
  · intro hre hlen hnotgz hmagic hok hdec
    simp only [readResponseBody, hre]
    rw [if_neg (by simp [hre]), if_neg hnotgz, if_pos ⟨hlen, hmagic⟩, if_pos hok,
      if_neg (by simp [hdec])]
  · intro hre hok
    simp only [readResponseBody]
    rw [if_neg (by simp [hok]), if_neg (by simp [hre])]
  · intro hok herr
    simp only [readResponseBody]
    rw [if_pos hok]
    have : (gz.decodeErr body.bytes || body.readErr) = true := by
      rcases herr with h | h <;> simp [h]
    simp only [this, if_true]
  · intro hre hlen
    simp only [readResponseBody]
    rw [if_pos (by simp [hre]), if_pos hlen]

/-- Witness for `readResponseBody_behaviour` on the concrete codecs:
undeclared gzip and zstd magic payloads are decompressed, a rejected
declared-gzip header falls back to the raw bytes, a corrupt
declared-gzip stream with no partial output errors, and an undeclared
mid-stream error returns the partial raw bytes. -/
theorem readResponseBody_behaviour_witness :
    readResponseBody gzSample zsSample .missing
        { bytes := [0x1f, 0x8b, 0x08, 0x00], readErr := false } = .ok [65]
    ∧ readResponseBody gzSample zsSample .missing
        { bytes := [0x28, 0xb5, 0x2f, 0xfd, 0x00], readErr := false } = .ok [66]
    ∧ readResponseBody gzSample zsSample .gzip
        { bytes := [9, 9, 9], readErr := false } = .ok [9, 9, 9]
    ∧ readResponseBody gzSample zsSample .gzip
        { bytes := [0x1f, 0x8b, 0x08, 0x99], readErr := false } =
        (if 0 < (gzSample.decodeBytes [0x1f, 0x8b, 0x08, 0x99]).length
          then .ok (gzSample.decodeBytes [0x1f, 0x8b, 0x08, 0x99])
          else .error ())
    ∧ readResponseBody gzSample zsSample .missing
        { bytes := [1, 2, 3], readErr := true } = .ok [1, 2, 3] := by
  have h1 := readResponseBody_behaviour gzSample zsSample
    { bytes := [0x1f, 0x8b, 0x08, 0x00], readErr := false }
  have h2 := readResponseBody_behaviour gzSample zsSample
    { bytes := [0x28, 0xb5, 0x2f, 0xfd, 0x00], readErr := false }
  have h3 := readResponseBody_behaviour gzSample zsSample
    { bytes := [9, 9, 9], readErr := false }
  have h4 := readResponseBody_behaviour gzSample zsSample
    { bytes := [0x1f, 0x8b, 0x08, 0x99], readErr := false }
  have h5 := readResponseBody_behaviour gzSample zsSample
    { bytes := [1, 2, 3], readErr := true }
  refine ⟨?_, ?_, ?_, ?_, ?_⟩
  · exact (h1.1 (by decide) (by decide) (by decide) (by decide) (by decide)).trans rfl
  · exact (h2.2.1 (by decide) (by decide) (by decide) (by decide) (by decide)
      (by decide)).trans rfl
  · exact h3.2.2.1 (by decide) (by decide)
  · exact h4.2.2.2.1 (by decide) (Or.inl (by decide))
  · exact h5.2.2.2.2 (by decide) (by decide)

/-! ## Response classification in `forwardRequest` (proxy.go:658-721) -/

/-- Result of executing the outbound request. -/
inductive UpstreamResult where
  | transportError
  | response (status : Int) (retryAfterHdr : Option Int)
      (enc : ContentEncoding) (body : RespBody)
  deriving Repr, DecidableEq

/-- What `forwardRequest` records against the circuit breaker for an
attempt. -/
inductive Effect where
  | noRecord
  | recordFailure (code : Int)
  | record429 (retryAfter : Option Int)
  | recordSuccess
  deriving Repr, DecidableEq

/-- The `(response, shouldRetry, error)` outcome of one attempt, plus the
circuit-breaker effect and the body re-attached for the client. -/
structure AttemptOutcome where
  returned : Bool
  shouldRetry : Bool
  effect : Effect
  clientBody : Option (List Nat)
  deriving Repr, DecidableEq

/-- The outcome classification of `forwardRequest` (proxy.go:658-721):
transport errors record a failure and retry; non-2xx statuses have
their bodies read (a read failure records a failure and retries), then
429 records the rate limit and retries, ≥ 500 records a failure and
retries, 401/403 return to the client with nothing recorded, any other
non-2xx returns to the client with nothing recorded; 2xx records a
success. -/
def classifyUpstream (gz zs : Codec) (res : UpstreamResult) : AttemptOutcome :=
  match res with
  | .transportError =>
    { returned := false, shouldRetry := true, effect := .recordFailure 0,
      clientBody := none }
  | .response status ra enc body =>
    if status < 200 ∨ 300 ≤ status then
      match readResponseBody gz zs enc body with
      | .error _ =>
        { returned := false, shouldRetry := true,
          effect := .recordFailure status, clientBody := none }
      | .ok bytes =>
        if status = 429 then
          { returned := false, shouldRetry := true, effect := .record429 ra,
            clientBody := none }
        else if 500 ≤ status then
          { returned := false, shouldRetry := true,
            effect := .recordFailure status, clientBody := none }
        else if status = 401 ∨ status = 403 then
          { returned := true, shouldRetry := false, effect := .noRecord,
            clientBody := some bytes }
        else
          { returned := true, shouldRetry := false, effect := .noRecord,
            clientBody := some bytes }
    else
      { returned := true, shouldRetry := false, effect := .recordSuccess,
        clientBody := none }

/-- Counterexample to C5 as stated: an upstream 401 whose body read
fails with no data is NOT returned to the client — `forwardRequest`
records a circuit-breaker failure and retries the next backend. -/
theorem auth_error_unreadable_body_retries :
    (classifyUpstream gzSample zsSample
        (.response 401 none .missing { bytes := [], readErr := true })).shouldRetry
      = true
    ∧ (classifyUpstream gzSample zsSample
        (.response 401 none .missing { bytes := [], readErr := true })).effect
      = .recordFailure 401 := by decide

/-- C5 (amended): provided the response body is read successfully, an
upstream 401/403 is returned to the client with `shouldRetry = false`
and nothing recorded against the backend, and the same holds for every
other non-2xx status outside 429 and the ≥ 500 range (3xx and other
4xx).  When reading the body fails, a circuit-breaker failure is
recorded and the next backend is tried instead. -/
theorem auth_and_client_errors_terminal (gz zs : Codec) (status : Int)
    (ra : Option Int) (enc : ContentEncoding) (body : RespBody)
    (bytes : List Nat)
    (hread : readResponseBody gz zs enc body = .ok bytes) :
    ((status = 401 ∨ status = 403) →
      classifyUpstream gz zs (.response status ra enc body) =
        { returned := true, shouldRetry := false, effect := .noRecord,
          clientBody := some bytes })
    ∧ ((status < 200 ∨ 300 ≤ status) → status ≠ 429 → status < 500 →
        status ≠ 401 → status ≠ 403 →
        classifyUpstream gz zs (.response status ra enc body) =
          { returned := true, shouldRetry := false, effect := .noRecord,
            clientBody := some bytes }) := by
  constructor
  · intro hstatus
    have hnon2xx : status < 200 ∨ 300 ≤ status := by
      rcases hstatus with h | h <;> omega
    have h429 : ¬ (status = 429) := by rcases hstatus with h | h <;> omega
    have h500 : ¬ (500 ≤ status) := by rcases hstatus with h | h <;> omega
    simp only [classifyUpstream, if_pos hnon2xx, hread]
    rw [if_neg h429, if_neg h500, if_pos hstatus]
  · intro hnon2xx h429 h500 h401 h403
    have h500' : ¬ (500 ≤ status) := by omega
    simp only [classifyUpstream, if_pos hnon2xx, hread]
    rw [if_neg h429, if_neg h500', if_neg (by tauto)]

/-- Witness for `auth_and_client_errors_terminal`: a 403 with a plain
readable body is terminal with nothing recorded, and so is a 404. -/
theorem auth_and_client_errors_terminal_witness :
    classifyUpstream gzSample zsSample
        (.response 403 none .missing { bytes := [7], readErr := false }) =
      { returned := true, shouldRetry := false, effect := .noRecord,
        clientBody := some [7] }
    ∧ classifyUpstream gzSample zsSample
        (.response 404 none .missing { bytes := [7], readErr := false }) =
      { returned := true, shouldRetry := false, effect := .noRecord,
        clientBody := some [7] } := by
  have h1 := auth_and_client_errors_terminal gzSample zsSample 403 none .missing
    { bytes := [7], readErr := false } [7] rfl
  have h2 := auth_and_client_errors_terminal gzSample zsSample 404 none .missing
    { bytes := [7], readErr := false } [7] rfl
  exact ⟨h1.1 (Or.inr rfl),
    h2.2 (by decide) (by decide) (by decide) (by decide) (by decide)⟩

/-! ## Anthropic → OpenAI request conversion (proxy.go:863-1167) -/

/-- Embeds `anthropicImageSource`: kind tag plus the fields the converter reads. -/
structure AnthropicImageSource where
  type : String
  mediaType : String
  data : String
  url : String
  deriving Repr, DecidableEq

/-- Embeds `anthropicContentBlock`.  The `json.RawMessage` fields (`input`,
`content`) are carried as their raw JSON text, with `""` for an empty
raw message. -/
structure AnthropicContentBlock where
  type : String
  text : String
  source : Option AnthropicImageSource
  id : String
  name : String
  input : String
  toolUseId : String
  content : String
  deriving Repr, DecidableEq

/-- The decoded view of a `json.RawMessage` holding message content or the
`system` field: a JSON string, a block array, or anything else (which
both decoders reject). -/
inductive AnthropicMsgContent where
  | str (s : String)
  | blocks (bs : List AnthropicContentBlock)
  | invalid (tag : Nat)
  deriving Repr, DecidableEq

/-- Embeds `anthropicMsg`. -/
structure AnthropicMsg where
  role : String
  content : AnthropicMsgContent
  deriving Repr, DecidableEq

/-- Embeds `anthropicTool`; `inputSchema` carries the raw JSON schema, `""` when
absent. -/
structure AnthropicTool where
  name : String
  description : String
  inputSchema : String
  deriving Repr, DecidableEq

/-- The `tool_choice` value as probed by `convertToolChoice`: a JSON
object (with the `type`/`name` string fields, `""` when absent or not a
string, matching the Go zero value of a failed type assertion) or any
non-object value. -/
inductive ToolChoiceVal where
  | obj (type : String) (name : String)
  | nonObj (tag : Nat)
  deriving Repr, DecidableEq

/-- Embeds `anthropicMessageRequest`.  The JSON numeral `temperature` is
modelled as a rational. -/
structure AnthropicRequest where
  model : String
  maxTokens : Int
  temperature : Option ℚ
  stream : Bool
  system : Option AnthropicMsgContent
  messages : List AnthropicMsg
  tools : List AnthropicTool
  toolChoice : Option ToolChoiceVal
  deriving Repr, DecidableEq

structure OpenAIToolCall where
  id : String
  name : String
  arguments : String
  deriving Repr, DecidableEq

inductive OpenAIContentPart where
  | text (t : String)
  | imageUrl (u : String)
  deriving Repr, DecidableEq

/-- The message shapes `convertAnthropicToOpenAI` and its helpers emit
into the OpenAI `messages` array. -/
inductive OpenAIMessage where
  | system (content : String)
  | plainText (role : String) (content : String)
  | parts (role : String) (ps : List OpenAIContentPart)
  | toolResult (toolCallId : String) (content : String)
  | assistant (content : Option String) (toolCalls : List OpenAIToolCall)
  deriving Repr, DecidableEq

/-- An OpenAI tool definition; `parameters` carries the raw schema JSON
embedded by the converter, `none` when the key is left unset. -/
structure OpenAITool where
  name : String
  description : String
  parameters : Option String
  deriving Repr, DecidableEq

/-- The result of `convertToolChoice`. -/
inductive OpenAIToolChoice where
  | mode (s : String)
  | forcedFunction (name : String)
  | passthrough (v : ToolChoiceVal)
  deriving Repr, DecidableEq

/-- Embeds `openaiChatCompletionRequest`. -/
structure OpenAIRequest where
  model : String
  messages : List OpenAIMessage
  maxTokens : Int
  temperature : Option ℚ
  stream : Bool
  tools : List OpenAITool
  toolChoice : Option OpenAIToolChoice
  deriving Repr, DecidableEq

/-- Embeds `joinTextBlocks` (proxy.go:981-992). -/
def joinTextBlocks (blocks : List AnthropicContentBlock) : String :=
  blocks.foldl
    (fun acc blk =>
      if blk.type = "text" ∧ blk.text ≠ "" then
        (if 0 < acc.length then acc ++ "\n" else acc) ++ blk.text
      else acc)
    ""

/-- Embeds `extractSystemText` (proxy.go:965-978). -/
def extractSystemText : Option AnthropicMsgContent → String
  | none => ""
  | some (.str s) => s
  | some (.blocks bs) => joinTextBlocks bs
  | some (.invalid _) => ""

/-- Models `strings.ToLower` on Lean strings (character-wise lowering). -/
def stringToLower (s : String) : String := ⟨s.data.map Char.toLower⟩

/-- Models `strings.Contains` on Lean strings (substring containment). -/
def strContains (s pat : String) : Bool := decide (pat.data <:+: s.data)

/-- The enhancement block appended for models matching "gpt-4"
(proxy.go:928-943). -/
def gpt4Enhancement : String :=
  "\n\nIMPORTANT: When working with code, follow this structured approach:\n\n1. **Analysis**: Briefly analyze the request and current state\n2. **Plan**: Describe your approach to solve the problem\n3. **Implementation**: Show the actual code with clear explanations\n4. **Verification**: Explain how your solution addresses the requirements\n\nFor file modifications:\n- Use markdown headers like \"### File: path/to/file.go\"\n- Show before/after when helpful\n- Explain the reasoning behind changes\n- Be thorough but concise\n\nAlways explain your reasoning step-by-step as you work."

/-- The enhancement block appended for models matching "gpt-3.5"
(proxy.go:945-953). -/
def gpt35Enhancement : String :=
  "\n\nWhen working with code:\n1. First analyze what\x27s needed\n2. Plan your approach\n3. Show the implementation\n4. Explain how it works\n\nUse markdown headers for files and be concise."

/-- The default enhancement block (proxy.go:956-958). -/
def defaultEnhancement : String :=
  "\n\nPlease be detailed and structured in your responses, especially for code-related tasks."

/-- The `enhancement` chosen by `getEnhancedSystemPrompt`
(proxy.go:920-959). -/
def enhancementFor (model : String) : String :=
  let modelLower := stringToLower model
  if strContains modelLower "gpt-4" then gpt4Enhancement
  else if strContains modelLower "gpt-3.5" then gpt35Enhancement
  else defaultEnhancement

/-- Embeds `getEnhancedSystemPrompt` (proxy.go:920-962). -/
def getEnhancedSystemPrompt (basePrompt model : String) : String :=
  basePrompt ++ enhancementFor model

/-- The data-URL / plain-URL construction for image blocks
(proxy.go:1061-1077). -/
def imageBlockUrl (src : AnthropicImageSource) : String :=
  if src.type = "base64" then
    if src.mediaType ≠ "" ∧ src.data ≠ "" then
      "data:" ++ src.mediaType ++ ";base64," ++ src.data
    else ""
  else if src.type = "url" then src.url
  else ""

/-- Embeds `convertUserBlocks` (proxy.go:1032-1092). -/
def convertUserBlocks (blocks : List AnthropicContentBlock) :
    List OpenAIMessage :=
  let toolMsgs := blocks.filterMap fun blk =>
    if blk.type = "tool_result" ∧ blk.toolUseId.trim ≠ "" then
      some (OpenAIMessage.toolResult blk.toolUseId blk.content)
    else none
  let parts := blocks.filterMap fun blk =>
    if blk.type = "text" then
      if blk.text ≠ "" then some (OpenAIContentPart.text blk.text) else none
    else if blk.type = "image" then
      match blk.source with
      | some src =>
        if imageBlockUrl src ≠ "" then
          some (OpenAIContentPart.imageUrl (imageBlockUrl src))
        else none
      | none => none
    else none
  if 0 < parts.length then
    match parts with
    | [OpenAIContentPart.text t] => toolMsgs ++ [.plainText "user" t]
    | _ => toolMsgs ++ [.parts "user" parts]
  else toolMsgs

/-- Embeds `convertAssistantBlocks` (proxy.go:1095-1122); an empty tool-use
`input` defaults to the raw text of an empty JSON object. -/
def convertAssistantBlocks (blocks : List AnthropicContentBlock) :
    List OpenAIMessage :=
  let text := joinTextBlocks blocks
  let toolCalls := blocks.filterMap fun blk =>
    if blk.type = "tool_use" ∧ blk.id.trim ≠ "" ∧ blk.name.trim ≠ "" then
      some { id := blk.id, name := blk.name,
             arguments := if blk.input ≠ "" then blk.input else "\x7b\x7d"
             : OpenAIToolCall }
    else none
  [.assistant (if text ≠ "" then some text else none) toolCalls]

/-- Embeds `convertAnthropicMessage` (proxy.go:995-1029). -/
def convertAnthropicMessage (msg : AnthropicMsg) : List OpenAIMessage :=
  let role := msg.role.trim
  if role = "" then []
  else
    match msg.content with
    | .str s => [.plainText role s]
    | .blocks bs =>
      if role = "user" then convertUserBlocks bs
      else if role = "assistant" then convertAssistantBlocks bs
      else [.plainText role (joinTextBlocks bs)]
    | .invalid _ => []

/-- Embeds `convertAnthropicTools` (proxy.go:1125-1143). -/
def convertAnthropicTools (tools : List AnthropicTool) : List OpenAITool :=
  tools.map fun t =>
    { name := t.name, description := t.description,
      parameters := if t.inputSchema ≠ "" then some t.inputSchema else none }

/-- Embeds `convertToolChoice` (proxy.go:1146-1167). -/
def convertToolChoice (v : ToolChoiceVal) : OpenAIToolChoice :=
  match v with
  | .nonObj t => .passthrough (.nonObj t)
  | .obj ty name =>
    if ty = "auto" ∨ ty = "none" ∨ ty = "required" then .mode ty
    else if ty = "tool" then
      if name = "" then .mode "auto" else .forcedFunction name
    else .passthrough (.obj ty name)

/-- Embeds `convertAnthropicToOpenAI` (proxy.go:864-917) on an
already-decoded request. -/
def convertAnthropicToOpenAI (r : AnthropicRequest) : OpenAIRequest :=
  let systemPrompt := extractSystemText r.system
  let systemPrompt :=
    if systemPrompt = "" then "You are a helpful AI assistant." else systemPrompt
  let enhancedSystemPrompt := getEnhancedSystemPrompt systemPrompt r.model
  { model := r.model
    maxTokens := r.maxTokens
    temperature := r.temperature
    stream := r.stream
    messages := OpenAIMessage.system enhancedSystemPrompt ::
      (r.messages.map convertAnthropicMessage).flatten
    tools := if 0 < r.tools.length then convertAnthropicTools r.tools else []
    toolChoice := r.toolChoice.map convertToolChoice }

lemma enhancementFor_ne_empty (model : String) : enhancementFor model ≠ "" := by
  unfold enhancementFor
  by_cases h1 : strContains (stringToLower model) "gpt-4"
  · simp only [h1, if_true]; decide
  · by_cases h2 : strContains (stringToLower model) "gpt-3.5"
    · simp only [h1, h2, if_false, if_true, Bool.false_eq_true]; decide
    · simp only [h1, h2, if_false, Bool.false_eq_true]; decide

lemma append_enhancement_ne_self (base model : String) :
    base ++ enhancementFor model ≠ base := by
  intro h
  have hdata := congrArg String.data h
  rw [String.data_append] at hdata
  have : (enhancementFor model).data = [] := by
    have := congrArg List.length hdata
    simp at this
    exact List.eq_nil_of_length_eq_zero this
  exact enhancementFor_ne_empty model (by
    cases hm : enhancementFor model
    simp_all)

/-- C10: the converted request's message list always starts with exactly
one injected system message followed by the converted client messages;
its content is the client system text (or the default when the request
has no `system` field) with the non-empty, model-dependent enhancement
appended, so the client's system instruction is never forwarded
verbatim. -/
theorem system_prompt_always_injected (r : AnthropicRequest) :
    ((convertAnthropicToOpenAI r).messages =
      OpenAIMessage.system
          (getEnhancedSystemPrompt
            (if extractSystemText r.system = "" then
              "You are a helpful AI assistant."
            else extractSystemText r.system) r.model)
        :: (r.messages.map convertAnthropicMessage).flatten)
    ∧ (∀ base model : String,
        getEnhancedSystemPrompt base model = base ++ enhancementFor model)
    ∧ (∀ model : String, enhancementFor model ≠ "")
    ∧ (∀ base model : String, getEnhancedSystemPrompt base model ≠ base)
    ∧ (r.system = none →
        (convertAnthropicToOpenAI r).messages.head? =
          some (OpenAIMessage.system
            (getEnhancedSystemPrompt "You are a helpful AI assistant." r.model)))
    ∧ enhancementFor "gpt-4o" ≠ enhancementFor "gpt-3.5-turbo" := by
  refine ⟨rfl, fun _ _ => rfl, enhancementFor_ne_empty,
    fun base model => append_enhancement_ne_self base model, ?_, by decide⟩
  intro h
  simp only [convertAnthropicToOpenAI, h, extractSystemText]
  rfl

/-- A minimal native request with no `system` field. -/
def plainRequest : AnthropicRequest :=
  { model := "some-model", maxTokens := 16, temperature := none,
    stream := false, system := none,
    messages := [{ role := "user", content := .str "hi" }],
    tools := [], toolChoice := none }

/-- Witness for `system_prompt_always_injected` on a concrete request
without a `system` field. -/
theorem system_prompt_always_injected_witness :
    (convertAnthropicToOpenAI plainRequest).messages.head? =
      some (OpenAIMessage.system
        (getEnhancedSystemPrompt "You are a helpful AI assistant."
          "some-model")) :=
  (system_prompt_always_injected plainRequest).2.2.2.2.1 rfl

/-! ## Request-body conversion stage of `forwardRequest` -/

/-- The client body as seen by the converters: empty, bytes that are not
valid JSON (rejected by both the struct and the map decoder), or a body
decodable as a native message request. -/
inductive ReqBody where
  | empty
  | undecodable (tag : Nat)
  | anth (r : AnthropicRequest)
  deriving Repr, DecidableEq

/-- What ends up as the outbound request body.  `legacyConverted`
stands for the `convertClaudeToOpenAI` image (converter.go:9-83) of a
decodable body, whose exact shape this development does not need. -/
inductive SentBody where
  | original (b : ReqBody)
  | converted (o : OpenAIRequest)
  | legacyConverted (r : AnthropicRequest)
  deriving Repr, DecidableEq

/-- Outcome of the conversion stage: the body to send (`none` when the
attempt is aborted), whether a circuit-breaker failure was recorded,
and whether the attempt aborts with shouldRetry = true. -/
structure ConvertOutcome where
  sent : Option SentBody
  recordFailure : Bool
  retryNext : Bool
  deriving Repr, DecidableEq

/-- The conversion stage of `forwardRequest` (proxy.go:613-623): for an
"openai" backend the body is converted; on conversion failure the
failure is only logged and the ORIGINAL body is kept, nothing is
recorded and the attempt proceeds. -/
def convertRequestStage (platform : String) (body : ReqBody) :
    ConvertOutcome :=
  if platform = "openai" then
    match body with
    | .anth r =>
      { sent := some (.converted (convertAnthropicToOpenAI r)),
        recordFailure := false, retryNext := false }
    | b =>
      -- conversion failed: continue with the original body
      { sent := some (.original b), recordFailure := false,
        retryNext := false }
  else
    { sent := some (.original body), recordFailure := false,
      retryNext := false }

/-- The conversion stage of the earlier `forwardRequest` variant
(proxy.go:1652-1662): a non-empty body of an "openai" backend goes
through `convertClaudeToOpenAI`; on failure a circuit-breaker failure
is recorded and the attempt aborts with shouldRetry = true, so the
unconverted body is never sent. -/
def convertRequestStageLegacy (apiType : String) (body : ReqBody) :
    ConvertOutcome :=
  if apiType = "openai" then
    match body with
    | .empty =>
      { sent := some (.original .empty), recordFailure := false,
        retryNext := false }
    | .anth r =>
      { sent := some (.legacyConverted r), recordFailure := false,
        retryNext := false }
    | .undecodable _ =>
      { sent := none, recordFailure := true, retryNext := true }
  else
    { sent := some (.original body), recordFailure := false,
      retryNext := false }

/-- Counterexample to C6 as stated: in the current `forwardRequest`
(proxy.go:613-623) a body that fails protocol conversion IS sent
unconverted to the openai-tagged backend, with no circuit-breaker
failure recorded and no move to the next candidate. -/
theorem conversion_failure_keeps_original_body :
    (convertRequestStage "openai" (.undecodable 7)).sent =
        some (.original (.undecodable 7))
    ∧ (convertRequestStage "openai" (.undecodable 7)).recordFailure = false
    ∧ (convertRequestStage "openai" (.undecodable 7)).retryNext = false :=
  ⟨rfl, rfl, rfl⟩

/-- C6 (amended): the two variants diverge.  In the current variant
(proxy.go:613-623) a conversion failure is logged and the original
unconverted body is forwarded, with nothing recorded — that stage never
records a failure for any input.  In the earlier variant
(proxy.go:1652-1662) a conversion failure records a circuit-breaker
failure and aborts to the next candidate without sending the
unconverted body, which is what the claim describes. -/
theorem conversion_failure_handling (t : Nat) (r : AnthropicRequest) :
    convertRequestStage "openai" (.undecodable t) =
      { sent := some (.original (.undecodable t)), recordFailure := false,
        retryNext := false }
    ∧ convertRequestStage "openai" (.anth r) =
      { sent := some (.converted (convertAnthropicToOpenAI r)),
        recordFailure := false, retryNext := false }
    ∧ convertRequestStageLegacy "openai" (.undecodable t) =
      { sent := none, recordFailure := true, retryNext := true }
    ∧ (∀ (p : String) (b : ReqBody),
        (convertRequestStage p b).recordFailure = false ∧
        (convertRequestStage p b).retryNext = false) := by
  refine ⟨rfl, rfl, rfl, ?_⟩
  intro p b
  unfold convertRequestStage
  split
  · cases b <;> exact ⟨rfl, rfl⟩
  · exact ⟨rfl, rfl⟩

/-! ## Streaming detection and timeout policy (proxy.go:631-648, 465-482) -/

/-- A JSON literal as probed by the `bodyMap["stream"].(bool)` type
assertion. -/
inductive JsonLit where
  | jbool (b : Bool)
  | nonBool (tag : Nat)
  deriving Repr, DecidableEq

/-- The `map[string]any` view of the outbound body used for stream
detection: empty body (probe skipped), JSON that does not decode, or an
object with the optional `stream` field. -/
inductive JsonBodyView where
  | empty
  | notObject (tag : Nat)
  | obj (streamField : Option JsonLit)
  deriving Repr, DecidableEq

/-- The `isStreamingRequest` computation (proxy.go:631-640): true
exactly when the body decodes to an object whose `stream` field is the
boolean `true`. -/
def isStreamingRequest (v : JsonBodyView) : Bool :=
  match v with
  | .obj (some (.jbool b)) => b
  | _ => false

/-- The timeout-context decision (proxy.go:642-648): a non-streaming
request is wrapped in `context.WithTimeout` with the configured retry
timeout; a streaming request is not wrapped at all. -/
def requestTimeout (cfg : Config) (v : JsonBodyView) : Option Int :=
  if isStreamingRequest v then none else some cfg.retry.timeout

/-- The shared outbound `http.Client` is constructed with `Timeout: 0`
(proxy.go:473-477), deliberately, so no global client timeout applies. -/
def httpClientTimeoutSeconds : Int := 0

/-- C7: a body whose `stream` field is boolean `true` is never given a
deadline context, every other body always gets a context bounded by the
configured request timeout, and the shared HTTP client carries no
global timeout that could bound a streaming request. -/
theorem streaming_timeout_policy (cfg : Config) (v : JsonBodyView) :
    (isStreamingRequest v = true ↔ v = .obj (some (.jbool true)))
    ∧ (v = .obj (some (.jbool true)) → requestTimeout cfg v = none)
    ∧ (isStreamingRequest v = false →
        requestTimeout cfg v = some cfg.retry.timeout)
    ∧ httpClientTimeoutSeconds = 0 := by
  refine ⟨?_, ?_, ?_, rfl⟩
  · constructor
    · intro h
      rcases v with _ | t | sf
      · simp [isStreamingRequest] at h
      · simp [isStreamingRequest] at h
      · rcases sf with _ | lit
        · simp [isStreamingRequest] at h
        · rcases lit with b | t2
          · cases b
            · simp [isStreamingRequest] at h
            · rfl
          · simp [isStreamingRequest] at h
    · rintro rfl; rfl
  · rintro rfl; rfl
  · intro h; simp [requestTimeout, h]

/-- Witness for `streaming_timeout_policy`: a streaming body gets no
deadline while a non-streaming body gets the configured 30 s one. -/
theorem streaming_timeout_policy_witness :
    requestTimeout cfgDefault (.obj (some (.jbool true))) = none
    ∧ requestTimeout cfgDefault (.obj none) = some 30 := by
  have h1 := streaming_timeout_policy cfgDefault (.obj (some (.jbool true)))
  have h2 := streaming_timeout_policy cfgDefault (.obj none)
  exact ⟨h1.2.1 rfl, (h2.2.2.1 rfl).trans rfl⟩

/-! ## Streaming conversion `streamOpenAIToAnthropic` (proxy.go:1231-1409) -/

/-- One upstream SSE line, as classified by the line dispatch
(proxy.go:1296-1331) after trimming the trailing newline: blank lines
and `:`-comments are skipped, lines without a `data:` prefix are
skipped, `data: [DONE]` terminates, data whose JSON fails to parse or
whose `choices` array is empty is skipped, and a parsed chunk carries
the first choice's optional `delta.content` and optional
`finish_reason`. -/
inductive SSELine where
  | blank
  | comment
  | noData
  | done
  | badChunk (tag : Nat)
  | emptyChoices
  | chunk (content : Option String) (finish : Option String)
  deriving Repr, DecidableEq

/-- The native SSE events emitted downstream. -/
inductive StreamEvent where
  | messageStart
  | contentBlockStart (index : Int)
  | contentBlockDelta (index : Int) (text : String)
  | contentBlockStop (index : Int)
  | messageDelta (stopReason : String)
  | messageStop
  deriving Repr, DecidableEq

/-- Embeds `mapFinishReason` (proxy.go:1479-1495). -/
def mapFinishReason (finish : String) : String :=
  if finish = "stop" then "end_turn"
  else if finish = "length" then "max_tokens"
  else if finish = "tool_calls" then "tool_use"
  else if finish = "content_filter" then "stop_sequence"
  else "end_turn"

/-- The mutable locals of `streamOpenAIToAnthropic`
(proxy.go:1272-1277). -/
structure StreamConvState where
  finishReason : String
  nextContentBlockIndex : Int
  currentContentBlockIndex : Int
  currentBlockType : String
  hasTextBlock : Bool
  deriving Repr, DecidableEq

def initStreamConvState : StreamConvState :=
  { finishReason := "", nextContentBlockIndex := 0,
    currentContentBlockIndex := -1, currentBlockType := "",
    hasTextBlock := false }

/-- Embeds `closeCurrentBlock` (proxy.go:1285-1294). -/
def closeCurrentBlock (st : StreamConvState) :
    List StreamEvent × StreamConvState :=
  if 0 ≤ st.currentContentBlockIndex then
    ([.contentBlockStop st.currentContentBlockIndex],
      { st with currentContentBlockIndex := -1, currentBlockType := "" })
  else ([], st)

/-- The loop body for one parsed chunk (proxy.go:1333-1382): a non-empty
text delta closes a non-text block, opens the text block on first use
(assigning the next index) and emits a `content_block_delta`; a present
`finish_reason` stores it and emits a `message_delta` with the mapped
stop reason. -/
def processChunk (st : StreamConvState) (content finish : Option String) :
    List StreamEvent × StreamConvState :=
  let (evs1, st1) :=
    match content with
    | some c =>
      if c ≠ "" then
        let (closeEvs, stA) :=
          if st.currentBlockType ≠ "" ∧ st.currentBlockType ≠ "text" then
            closeCurrentBlock st
          else ([], st)
        let (startEvs, stB) :=
          if !stA.hasTextBlock then
            let idx := stA.nextContentBlockIndex
            ([StreamEvent.contentBlockStart idx],
              { stA with
                hasTextBlock := true
                nextContentBlockIndex := idx + 1
                currentContentBlockIndex := idx
                currentBlockType := "text" })
          else ([], stA)
        (closeEvs ++ startEvs ++
          [StreamEvent.contentBlockDelta stB.currentContentBlockIndex c], stB)
      else ([], st)
    | none => ([], st)
  match finish with
  | some f =>
    (evs1 ++ [StreamEvent.messageDelta (mapFinishReason f)],
      { st1 with finishReason := f })
  | none => (evs1, st1)

/-- The closing sequence after the read loop (proxy.go:1385-1406): close
any open content block, synthesize a default `end_turn` message_delta
when no finish reason was seen, then emit `message_stop`. -/
def streamTrailer (st : StreamConvState) : List StreamEvent :=
  (closeCurrentBlock st).1 ++
    (if st.finishReason = "" then [.messageDelta "end_turn"] else []) ++
    [.messageStop]

/-- The read loop of `streamOpenAIToAnthropic` over the classified lines
(proxy.go:1296-1383): skip lines produce nothing, `[DONE]` breaks out,
chunks are processed, and end of stream appends the trailer. -/
def processLines (st : StreamConvState) : List SSELine → List StreamEvent
  | [] => streamTrailer st
  | line :: rest =>
    match line with
    | .blank => processLines st rest
    | .comment => processLines st rest
    | .noData => processLines st rest
    | .badChunk _ => processLines st rest
    | .emptyChoices => processLines st rest
    | .done => streamTrailer st
    | .chunk content finish =>
      let (evs, st') := processChunk st content finish
      evs ++ processLines st' rest

/-- Embeds `streamOpenAIToAnthropic` (proxy.go:1231-1409) as the stream of
emitted events: the synthesized `message_start` followed by the loop's
output. -/
def streamOpenAIToAnthropic (lines : List SSELine) : List StreamEvent :=
  .messageStart :: processLines initStreamConvState lines

/-- The concatenated content deltas of the foreign stream, up to the
`[DONE]` sentinel. -/
def foreignDeltaText : List SSELine → String
  | [] => ""
  | .done :: _ => ""
  | .chunk (some c) _ :: rest => c ++ foreignDeltaText rest
  | _ :: rest => foreignDeltaText rest

/-- The concatenated `content_block_delta` texts of the emitted native
stream. -/
def nativeDeltaText : List StreamEvent → String
  | [] => ""
  | .contentBlockDelta _ t :: rest => t ++ nativeDeltaText rest
  | _ :: rest => nativeDeltaText rest

/-- Whether the stream carries an explicit finish-reason chunk before
`[DONE]`. -/
def hasFinishChunk : List SSELine → Bool
  | [] => false
  | .done :: _ => false
  | .chunk _ (some _) :: _ => true
  | _ :: rest => hasFinishChunk rest

lemma nativeDeltaText_append (l1 l2 : List StreamEvent) :
    nativeDeltaText (l1 ++ l2) = nativeDeltaText l1 ++ nativeDeltaText l2 := by
  induction l1 with
  | nil => simp [nativeDeltaText]
  | cons e rest ih =>
    cases e <;> simp [nativeDeltaText, ih, String.append_assoc]

lemma nativeDeltaText_processChunk (st : StreamConvState)
    (c f : Option String) :
    nativeDeltaText (processChunk st c f).1 = c.getD "" := by
  cases c with
  | none =>
    cases f <;>
      simp [processChunk, nativeDeltaText, nativeDeltaText_append]
  | some s =>
    by_cases hs : s = ""
    · subst hs
      cases f <;>
        simp [processChunk, nativeDeltaText, nativeDeltaText_append]
    · cases f <;>
      · simp only [processChunk, hs, ne_eq, not_false_iff, if_true,
          Option.getD_some]
        split <;> split <;>
          simp [nativeDeltaText, nativeDeltaText_append, closeCurrentBlock] <;>
          split <;> simp [nativeDeltaText]

lemma nativeDeltaText_streamTrailer (st : StreamConvState) :
    nativeDeltaText (streamTrailer st) = "" := by
  simp only [streamTrailer, closeCurrentBlock]
  split <;> split <;> simp [nativeDeltaText]

lemma processChunk_finishReason (st : StreamConvState) (c : Option String) :
    (processChunk st c none).2.finishReason = st.finishReason := by
  cases c with
  | none => rfl
  | some s =>
    by_cases hs : s = ""
    · subst hs; rfl
    · simp only [processChunk, hs, ne_eq, not_false_iff, if_true]
      split <;> split <;> simp [closeCurrentBlock] <;> split <;> rfl

lemma processLines_getLast (st : StreamConvState) (lines : List SSELine) :
    (processLines st lines).getLast? = some .messageStop := by
  induction lines generalizing st with
  | nil =>
    simp only [processLines, streamTrailer]
    exact List.getLast?_concat _
  | cons line rest ih =>
    cases line with
    | blank => exact ih st
    | comment => exact ih st
    | noData => exact ih st
    | badChunk t => exact ih st
    | emptyChoices => exact ih st
    | done =>
      simp only [processLines, streamTrailer]
      exact List.getLast?_concat _
    | chunk c f =>
      simp only [processLines]
      rw [List.getLast?_append, ih _]
      rfl

lemma nativeDeltaText_processLines (st : StreamConvState)
    (lines : List SSELine) :
    nativeDeltaText (processLines st lines) = foreignDeltaText lines := by
  induction lines generalizing st with
  | nil => simp [processLines, nativeDeltaText_streamTrailer, foreignDeltaText]
  | cons line rest ih =>
    cases line with
    | blank => simpa [processLines, foreignDeltaText] using ih st
    | comment => simpa [processLines, foreignDeltaText] using ih st
    | noData => simpa [processLines, foreignDeltaText] using ih st
    | badChunk t => simpa [processLines, foreignDeltaText] using ih st
    | emptyChoices => simpa [processLines, foreignDeltaText] using ih st
    | done =>
      simp [processLines, nativeDeltaText_streamTrailer, foreignDeltaText]
    | chunk c f =>
      simp only [processLines, nativeDeltaText_append,
        nativeDeltaText_processChunk, ih]
      cases c with
      | none => simp [foreignDeltaText]
      | some s => simp [foreignDeltaText]

lemma processLines_no_finish (st : StreamConvState) (lines : List SSELine)
    (hno : hasFinishChunk lines = false) (hst : st.finishReason = "") :
    ∃ evs, processLines st lines =
      evs ++ [.messageDelta "end_turn", .messageStop] := by
  induction lines generalizing st with
  | nil =>
    refine ⟨(closeCurrentBlock st).1, ?_⟩
    simp [processLines, streamTrailer, hst]
  | cons line rest ih =>
    cases line with
    | blank => exact ih st (by simpa [hasFinishChunk] using hno) hst
    | comment => exact ih st (by simpa [hasFinishChunk] using hno) hst
    | noData => exact ih st (by simpa [hasFinishChunk] using hno) hst
    | badChunk t => exact ih st (by simpa [hasFinishChunk] using hno) hst
    | emptyChoices => exact ih st (by simpa [hasFinishChunk] using hno) hst
    | done =>
      refine ⟨(closeCurrentBlock st).1, ?_⟩
      simp [processLines, streamTrailer, hst]
    | chunk c f =>
      cases f with
      | some g => simp [hasFinishChunk] at hno
      | none =>
        have hst' : (processChunk st c none).2.finishReason = "" :=
          (processChunk_finishReason st c).trans hst
        obtain ⟨evs, hevs⟩ :=
          ih (processChunk st c none).2
            (by simpa [hasFinishChunk] using hno) hst'
        refine ⟨(processChunk st c none).1 ++ evs, ?_⟩
        simp [processLines, hevs]

/-- C8: the emitted native stream always begins with the synthesized
`message_start` and ends with a terminal `message_stop`; the
concatenation of its `content_block_delta` texts equals the
concatenation of the foreign stream's content deltas (up to the
`[DONE]` sentinel); and when the stream carries no explicit
finish-reason chunk, a default `end_turn` `message_delta` is emitted
immediately before `message_stop`. -/
theorem stream_conversion_well_formed (lines : List SSELine) :
    (streamOpenAIToAnthropic lines).head? = some .messageStart
    ∧ (streamOpenAIToAnthropic lines).getLast? = some .messageStop
    ∧ nativeDeltaText (streamOpenAIToAnthropic lines) = foreignDeltaText lines
    ∧ (hasFinishChunk lines = false →
        ∃ evs, streamOpenAIToAnthropic lines =
          evs ++ [.messageDelta "end_turn", .messageStop]) := by
  refine ⟨rfl, ?_, ?_, ?_⟩
  · simp only [streamOpenAIToAnthropic]
    rw [show (StreamEvent.messageStart ::
        processLines initStreamConvState lines) =
      [StreamEvent.messageStart] ++ processLines initStreamConvState lines
      from rfl]
    rw [List.getLast?_append, processLines_getLast]
    rfl
  · simp only [streamOpenAIToAnthropic, nativeDeltaText]
    exact nativeDeltaText_processLines initStreamConvState lines
  · intro hno
    obtain ⟨evs, hevs⟩ :=
      processLines_no_finish initStreamConvState lines hno rfl
    exact ⟨.messageStart :: evs, by simp [streamOpenAIToAnthropic, hevs]⟩

/-- A sample foreign stream: two text deltas, then the `[DONE]` sentinel
with no explicit finish-reason chunk. -/
def sampleForeignStream : List SSELine :=
  [.blank, .chunk (some "He") none, .chunk (some "llo") none, .done]

/-- Witness for `stream_conversion_well_formed` on the sample stream:
the native stream starts with `message_start`, its delta text is
"Hello", and it closes with a synthesized `end_turn` delta followed by
`message_stop`. -/
theorem stream_conversion_well_formed_witness :
    (streamOpenAIToAnthropic sampleForeignStream).head? =
      some .messageStart
    ∧ nativeDeltaText (streamOpenAIToAnthropic sampleForeignStream) =
      foreignDeltaText sampleForeignStream
    ∧ ∃ evs, streamOpenAIToAnthropic sampleForeignStream =
        evs ++ [.messageDelta "end_turn", .messageStop] := by
  have h := stream_conversion_well_formed sampleForeignStream
  exact ⟨h.1, h.2.2.1, h.2.2.2 (by decide)⟩

end CCProxy
